import Mathlib

/-!
# MetalOperations: kernel pipeline cache and dispatch protocol

A shallow embedding of `02-GeneralArrayOperations/MetalOperations.cpp`.

* Pointers returned by the Metal backend are `Option` values (`none` is `nullptr`).
* `std::map<std::string, T*>` is an insertion-ordered association list with the two
  behaviours of `operator[]` the source relies on: assignment through the returned
  reference (`StdMap.assign`) and reading, which default-inserts a null entry when
  the key is absent (`StdMap.subscript`).
* The Metal device is a record of the answers it gives to the calls the constructor
  makes; the constructor returns the engine together with what it printed and the
  device calls it made.
* A dispatch operation returns the engine state, the device commands it issued in
  order, and the fault (failed assertion or null dereference) at which it stopped,
  if any.
* `size_t` and `NS::UInteger` values are natural numbers: the code only compares
  and copies them.
-/

namespace MetalOps

/-! ## std::map -/

/-- Association list standing for a `std::map` with string keys. -/
abbrev StdMap (V : Type) := List (String × V)

namespace StdMap

/-- Lookup without insertion (`find`): `none` when the key is absent. -/
def find {V : Type} : StdMap V → String → Option V
  | [], _ => none
  | (k, v) :: rest, key => if k = key then some v else find rest key

/-- The statement `m[key] = v`: overwrite the entry of an existing key, or insert a new one. -/
def assign {V : Type} : StdMap V → String → V → StdMap V
  | [], key, v => [(key, v)]
  | (k, w) :: rest, key, v => if k = key then (k, v) :: rest else (k, w) :: assign rest key v

/-- Reading `m[key]` for a map of pointers: returns the stored pointer; when the key is
absent `operator[]` first inserts the key with a value-initialised (null) pointer. -/
def subscript {V : Type} (m : StdMap (Option V)) (key : String) : Option V × StdMap (Option V) :=
  match find m key with
  | some v => (v, m)
  | none => (none, m ++ [(key, none)])

end StdMap

/-! ## Metal objects -/

/-- An `MTL::Function`: a kernel function handle obtained from a library by name. -/
structure Function where
  name : String
  deriving DecidableEq, Repr

/-- An `MTL::ComputePipelineState`: the function it was compiled from and the limit it
reports through `maxTotalThreadsPerThreadgroup()`. -/
structure ComputePipelineState where
  function : Function
  maxTotalThreadsPerThreadgroup : Nat
  deriving DecidableEq, Repr

/-- An `MTL::ComputeCommandEncoder`. -/
structure ComputeCommandEncoder where
  deriving DecidableEq, Repr

/-- An `MTL::CommandBuffer`; the field is the answer of `computeCommandEncoder()`. -/
structure CommandBuffer where
  computeCommandEncoder : Option ComputeCommandEncoder
  deriving DecidableEq, Repr

/-- An `MTL::CommandQueue`; the field is the answer of `commandBuffer()`. -/
structure CommandQueue where
  commandBuffer : Option CommandBuffer
  deriving DecidableEq, Repr

/-- An `MTL::Library`: `functionNames()` and `newFunction(name)`. -/
structure Library where
  functionNames : List String
  newFunction : String → Option Function

/-- An `MTL::Device`, as far as the constructor uses it. A failing call returns the
description of the `NS::Error` it sets. -/
structure Device where
  newLibrary : String → Except String Library
  newComputePipelineState : Option Function → Except String ComputePipelineState
  newCommandQueue : Option CommandQueue

/-- An `MTL::Buffer` handle owned by the caller. -/
structure Buffer where
  id : Nat
  deriving DecidableEq, Repr

/-- An `MTL::Size`. -/
structure Size where
  width : Nat
  height : Nat
  depth : Nat
  deriving DecidableEq, Repr

/-- The call `MTL::Size::Make(width, height, depth)`. -/
def Size.Make (width height depth : Nat) : Size := ⟨width, height, depth⟩

/-! ## The engine and its constructor -/

/-- The data members of `MetalOperations` (`MetalOperations.hpp`). `_mCommandQueue` is
`none` both when it was never assigned and when it holds `nullptr`. The member
`_mDevice` is the constructor argument and is passed to the constructor explicitly. -/
structure MetalOperations where
  functionMap : StdMap (Option Function)
  functionPipelineMap : StdMap (Option ComputePipelineState)
  _mCommandQueue : Option CommandQueue

/-- A call the constructor makes on the device or on the loaded library. -/
inductive DeviceCall where
  | newLibrary (path : String)
  | functionNames
  | newFunction (name : String)
  | newComputePipelineState (fn : Option Function)
  | newCommandQueue
  deriving DecidableEq, Repr

/-- The engine under construction together with the lines written to `std::cout` and the
device calls made so far. -/
structure Construction where
  engine : MetalOperations
  stdout : List String
  calls : List DeviceCall

/-- The pointer part of a backend answer: `nullptr` on failure. -/
def pointerOf {α : Type} : Except String α → Option α
  | .ok a => some a
  | .error _ => none

/-- The text `error->description()->utf8String()` after a backend call: the description
stored by the failed call. -/
def errorDescription {α : Type} : Except String α → String
  | .ok _ => ""
  | .error description => description

/-- The loop of lines 29-53 over the remaining function names. The flag is `false` when
the loop left the constructor through the `return` of line 51. -/
def loadPipelines (device : Device) (opLibrary : Library) :
    List String → Construction → Construction × Bool
  | [], c => (c, true)
  | name_utf8 :: rest, c =>
    -- line 36
    let out := c.stdout ++ [name_utf8]
    -- lines 39-40: `functionMap[name_utf8] = opLibrary->newFunction(name_nsstring)`
    let functionMap := StdMap.assign c.engine.functionMap name_utf8 (opLibrary.newFunction name_utf8)
    -- lines 43-44: the argument `functionMap[name_utf8]` is read back from the map
    let fn := StdMap.subscript functionMap name_utf8
    let compiled := device.newComputePipelineState fn.1
    let functionPipelineMap :=
      StdMap.assign c.engine.functionPipelineMap name_utf8 (pointerOf compiled)
    let calls := c.calls ++ [.newFunction name_utf8, .newComputePipelineState fn.1]
    -- line 46: `functionPipelineMap[name_utf8] == nullptr`
    let stored := StdMap.subscript functionPipelineMap name_utf8
    let engine : MetalOperations :=
      { functionMap := fn.2
        functionPipelineMap := stored.2
        _mCommandQueue := c.engine._mCommandQueue }
    match stored.1 with
    | none =>
      -- lines 48-51
      ({ engine := engine
         stdout := out ++ ["Failed to created pipeline state object for " ++ name_utf8
                            ++ ", error " ++ errorDescription compiled]
         calls := calls }, false)
    | some _ =>
      loadPipelines device opLibrary rest { engine := engine, stdout := out, calls := calls }

/-- The library path fixed in line 14. -/
def libraryPath : String := "./ops.metallib"

/-- The constructor `MetalOperations::MetalOperations(MTL::Device *device)`. -/
def MetalOperations.new (device : Device) : Construction :=
  let start : MetalOperations :=
    { functionMap := [], functionPipelineMap := [], _mCommandQueue := none }
  -- line 15
  match device.newLibrary libraryPath with
  | .error description =>
    -- lines 17-22
    { engine := start
      stdout := ["Failed to find the default library. Error: " ++ description]
      calls := [.newLibrary libraryPath] }
  | .ok opLibrary =>
    -- lines 25-27
    let c0 : Construction :=
      { engine := start
        stdout := ["Available Metal functions in 'ops.metallib':"]
        calls := [.newLibrary libraryPath, .functionNames] }
    match loadPipelines device opLibrary opLibrary.functionNames c0 with
    | (c, false) => c
    | (c, true) =>
      -- lines 55-62
      let queue := device.newCommandQueue
      { engine := { c.engine with _mCommandQueue := queue }
        stdout := c.stdout ++ [""] ++
          (match queue with
           | none => ["Failed to find the command queue."]
           | some _ => [])
        calls := c.calls ++ [.newCommandQueue] }

/-! ## Device commands issued by a dispatch operation -/

/-- A call a dispatch operation makes on the command queue, the command buffer or the
compute encoder. -/
inductive Command where
  | commandBuffer
  | computeCommandEncoder
  | setComputePipelineState (pipeline : Option ComputePipelineState)
  | setBuffer (buffer : Buffer) (offset : Nat) (index : Nat)
  | dispatchThreads (threadsPerGrid : Size) (threadsPerThreadgroup : Size)
  | endEncoding
  | commit
  | waitUntilCompleted
  deriving DecidableEq, Repr

/-- The point at which a dispatch operation stops without completing. -/
inductive Fault where
  | noCommandQueue
  | commandBufferAssert
  | computeEncoderAssert
  | nullPipeline (name : String)
  deriving DecidableEq, Repr

/-- What a dispatch operation leaves behind: the engine state, the commands issued in
order, and the fault at which it stopped (`none` when it ran to its last line). -/
structure Run where
  state : MetalOperations
  commands : List Command
  fault : Option Fault

/-- The four opening lines shared by every dispatch operation (lines 70-73, 108-111,
144-147, 181-184, 218-221): take a command buffer from `_mCommandQueue`, assert it is
not null, take a compute encoder from it, assert it is not null. -/
def acquireEncoder (m : MetalOperations) : Except (List Command × Fault) (List Command) :=
  match m._mCommandQueue with
  | none => .error ([], .noCommandQueue)
  | some queue =>
    match queue.commandBuffer with
    | none => .error ([.commandBuffer], .commandBufferAssert)
    | some commandBuffer =>
      match commandBuffer.computeCommandEncoder with
      | none => .error ([.commandBuffer, .computeCommandEncoder], .computeEncoderAssert)
      | some _ => .ok [.commandBuffer, .computeCommandEncoder]

/-- The clamp `if (threadGroupSize > arrayLength) threadGroupSize = arrayLength;`. -/
def clampThreadGroupSize (threadGroupSize arrayLength : Nat) : Nat :=
  if threadGroupSize > arrayLength then arrayLength else threadGroupSize

/-- The function `MetalOperations::addArrays` (lines 65-99). -/
def MetalOperations.addArrays (m : MetalOperations) (x_array y_array r_array : Buffer)
    (arrayLength : Nat) : Run :=
  match acquireEncoder m with
  | .error (issued, fault) => { state := m, commands := issued, fault := some fault }
  | .ok issued =>
    -- lines 76-79
    let bound := StdMap.subscript m.functionPipelineMap "add_arrays"
    let issued := issued ++ [.setComputePipelineState bound.1,
      .setBuffer x_array 0 0, .setBuffer y_array 0 1, .setBuffer r_array 0 2]
    -- line 81
    let gridSize := Size.Make arrayLength 1 1
    -- lines 84-85
    let queried := StdMap.subscript bound.2 "add_arrays"
    let m1 : MetalOperations := { m with functionPipelineMap := queried.2 }
    match queried.1 with
    | none => { state := m1, commands := issued, fault := some (.nullPipeline "add_arrays") }
    | some pipeline =>
      -- lines 87-91
      let threadGroupSize :=
        clampThreadGroupSize pipeline.maxTotalThreadsPerThreadgroup arrayLength
      let threadgroupSize := Size.Make threadGroupSize 1 1
      -- lines 94-98
      { state := m1
        commands := issued ++ [.dispatchThreads gridSize threadgroupSize, .endEncoding,
          .commit, .waitUntilCompleted]
        fault := none }

/-- The function `MetalOperations::addMultiply` (lines 101-136). -/
def MetalOperations.addMultiply (m : MetalOperations) (x_array y_array r_array : Buffer)
    (arrayLength : Nat) : Run :=
  match acquireEncoder m with
  | .error (issued, fault) => { state := m, commands := issued, fault := some fault }
  | .ok issued =>
    -- line 113
    let gridSize := Size.Make arrayLength 1 1
    -- lines 114-115
    let queried := StdMap.subscript m.functionPipelineMap "add_arrays"
    match queried.1 with
    | none =>
      { state := { m with functionPipelineMap := queried.2 }
        commands := issued
        fault := some (.nullPipeline "add_arrays") }
    | some pipeline =>
      -- lines 116-118
      let threadGroupSize :=
        clampThreadGroupSize pipeline.maxTotalThreadsPerThreadgroup arrayLength
      let threadgroupSize := Size.Make threadGroupSize 1 1
      -- lines 120-124
      let first := StdMap.subscript queried.2 "add_arrays"
      let issued := issued ++ [.setComputePipelineState first.1,
        .setBuffer x_array 0 0, .setBuffer y_array 0 1, .setBuffer r_array 0 2,
        .dispatchThreads gridSize threadgroupSize]
      -- lines 126-130
      let second := StdMap.subscript first.2 "multiply_arrays"
      let issued := issued ++ [.setComputePipelineState second.1,
        .setBuffer r_array 0 0, .setBuffer y_array 0 1, .setBuffer r_array 0 2,
        .dispatchThreads gridSize threadgroupSize]
      -- lines 132-135
      { state := { m with functionPipelineMap := second.2 }
        commands := issued ++ [.endEncoding, .commit, .waitUntilCompleted]
        fault := none }

/-- The function `MetalOperations::multiplyArrays` (lines 138-173). -/
def MetalOperations.multiplyArrays (m : MetalOperations) (x_array y_array r_array : Buffer)
    (arrayLength : Nat) : Run :=
  match acquireEncoder m with
  | .error (issued, fault) => { state := m, commands := issued, fault := some fault }
  | .ok issued =>
    -- lines 150-153
    let bound := StdMap.subscript m.functionPipelineMap "multiply_arrays"
    let issued := issued ++ [.setComputePipelineState bound.1,
      .setBuffer x_array 0 0, .setBuffer y_array 0 1, .setBuffer r_array 0 2]
    -- line 155
    let gridSize := Size.Make arrayLength 1 1
    -- lines 158-159
    let queried := StdMap.subscript bound.2 "multiply_arrays"
    let m1 : MetalOperations := { m with functionPipelineMap := queried.2 }
    match queried.1 with
    | none =>
      { state := m1, commands := issued, fault := some (.nullPipeline "multiply_arrays") }
    | some pipeline =>
      -- lines 161-165
      let threadGroupSize :=
        clampThreadGroupSize pipeline.maxTotalThreadsPerThreadgroup arrayLength
      let threadgroupSize := Size.Make threadGroupSize 1 1
      -- lines 168-172
      { state := m1
        commands := issued ++ [.dispatchThreads gridSize threadgroupSize, .endEncoding,
          .commit, .waitUntilCompleted]
        fault := none }

/-- The function `MetalOperations::saxpyArrays` (lines 175-211). -/
def MetalOperations.saxpyArrays (m : MetalOperations) (alpha x_array y_array r_array : Buffer)
    (arrayLength : Nat) : Run :=
  match acquireEncoder m with
  | .error (issued, fault) => { state := m, commands := issued, fault := some fault }
  | .ok issued =>
    -- lines 187-191
    let bound := StdMap.subscript m.functionPipelineMap "saxpy"
    let issued := issued ++ [.setComputePipelineState bound.1,
      .setBuffer alpha 0 0, .setBuffer x_array 0 1, .setBuffer y_array 0 2,
      .setBuffer r_array 0 3]
    -- line 193
    let gridSize := Size.Make arrayLength 1 1
    -- lines 196-197
    let queried := StdMap.subscript bound.2 "saxpy"
    let m1 : MetalOperations := { m with functionPipelineMap := queried.2 }
    match queried.1 with
    | none => { state := m1, commands := issued, fault := some (.nullPipeline "saxpy") }
    | some pipeline =>
      -- lines 199-203
      let threadGroupSize :=
        clampThreadGroupSize pipeline.maxTotalThreadsPerThreadgroup arrayLength
      let threadgroupSize := Size.Make threadGroupSize 1 1
      -- lines 206-210
      { state := m1
        commands := issued ++ [.dispatchThreads gridSize threadgroupSize, .endEncoding,
          .commit, .waitUntilCompleted]
        fault := none }

/-- The function `MetalOperations::central_difference` (lines 213-247). -/
def MetalOperations.central_difference (m : MetalOperations) (delta x_array r_array : Buffer)
    (arrayLength : Nat) : Run :=
  match acquireEncoder m with
  | .error (issued, fault) => { state := m, commands := issued, fault := some fault }
  | .ok issued =>
    -- lines 224-227
    let bound := StdMap.subscript m.functionPipelineMap "central_difference"
    let issued := issued ++ [.setComputePipelineState bound.1,
      .setBuffer delta 0 0, .setBuffer x_array 0 1, .setBuffer r_array 0 2]
    -- line 229
    let gridSize := Size.Make arrayLength 1 1
    -- lines 232-233
    let queried := StdMap.subscript bound.2 "central_difference"
    let m1 : MetalOperations := { m with functionPipelineMap := queried.2 }
    match queried.1 with
    | none =>
      { state := m1, commands := issued, fault := some (.nullPipeline "central_difference") }
    | some pipeline =>
      -- lines 235-239
      let threadGroupSize :=
        clampThreadGroupSize pipeline.maxTotalThreadsPerThreadgroup arrayLength
      let threadgroupSize := Size.Make threadGroupSize 1 1
      -- lines 242-246
      { state := m1
        commands := issued ++ [.dispatchThreads gridSize threadgroupSize, .endEncoding,
          .commit, .waitUntilCompleted]
        fault := none }

/-! ## The five operations as one call surface -/

/-- A call of one of the five dispatch operations with its arguments. -/
inductive Call where
  | addArrays (x_array y_array r_array : Buffer) (arrayLength : Nat)
  | multiplyArrays (x_array y_array r_array : Buffer) (arrayLength : Nat)
  | addMultiply (x_array y_array r_array : Buffer) (arrayLength : Nat)
  | saxpyArrays (alpha x_array y_array r_array : Buffer) (arrayLength : Nat)
  | central_difference (delta x_array r_array : Buffer) (arrayLength : Nat)
  deriving DecidableEq, Repr

/-- Run a call on the engine. -/
def MetalOperations.perform (m : MetalOperations) : Call → Run
  | .addArrays x y r n => m.addArrays x y r n
  | .multiplyArrays x y r n => m.multiplyArrays x y r n
  | .addMultiply x y r n => m.addMultiply x y r n
  | .saxpyArrays a x y r n => m.saxpyArrays a x y r n
  | .central_difference d x r n => m.central_difference d x r n

/-- The element count passed to a call. -/
def Call.arrayLength : Call → Nat
  | .addArrays _ _ _ n => n
  | .multiplyArrays _ _ _ n => n
  | .addMultiply _ _ _ n => n
  | .saxpyArrays _ _ _ _ n => n
  | .central_difference _ _ _ n => n

/-- The string literals with which the body of each operation indexes
`functionPipelineMap`, in order of first use. -/
def Call.kernelNames : Call → List String
  | .addArrays _ _ _ _ => ["add_arrays"]
  | .multiplyArrays _ _ _ _ => ["multiply_arrays"]
  | .addMultiply _ _ _ _ => ["add_arrays", "multiply_arrays"]
  | .saxpyArrays _ _ _ _ _ => ["saxpy"]
  | .central_difference _ _ _ _ => ["central_difference"]

/-- The value of the expression `functionPipelineMap[name]`. -/
def MetalOperations.pipelineAt (m : MetalOperations) (name : String) :
    Option ComputePipelineState :=
  (StdMap.subscript m.functionPipelineMap name).1

/-- The pipeline cache holds a non-null pipeline under `name`. -/
def MetalOperations.Cached (m : MetalOperations) (name : String) : Prop :=
  ∃ pipeline, StdMap.find m.functionPipelineMap name = some (some pipeline)

/-- The command queue exists and hands out a command buffer and a compute encoder, so
that the two assertions at the top of every operation pass. -/
def MetalOperations.CanEncode (m : MetalOperations) : Prop :=
  acquireEncoder m = .ok [.commandBuffer, .computeCommandEncoder]

/-- The engine state of the spec: *Ready* once the constructor has stored a command
queue, which it does only after the whole loop over the kernels has run. -/
def Construction.ready (c : Construction) : Bool := c.engine._mCommandQueue.isSome

/-- The pipeline compile the constructor performs for one kernel name. -/
def compile (device : Device) (opLibrary : Library) (name : String) :
    Except String ComputePipelineState :=
  device.newComputePipelineState (opLibrary.newFunction name)

/-- The pipeline cache after the loop has stored the compile result of each of `names`,
in order, into `cache`. -/
def compiledInto (device : Device) (opLibrary : Library) :
    List String → StdMap (Option ComputePipelineState) → StdMap (Option ComputePipelineState)
  | [], cache => cache
  | name :: rest, cache =>
    compiledInto device opLibrary rest
      (StdMap.assign cache name (pointerOf (compile device opLibrary name)))

/-- The function map after the loop has stored the function handle of each of `names`. -/
def functionsInto (opLibrary : Library) :
    List String → StdMap (Option Function) → StdMap (Option Function)
  | [], functions => functions
  | name :: rest, functions =>
    functionsInto opLibrary rest (StdMap.assign functions name (opLibrary.newFunction name))

/-- The device calls the loop makes for `names`: one `newFunction` and one
`newComputePipelineState` per name. -/
def callsFor (opLibrary : Library) : List String → List DeviceCall
  | [] => []
  | name :: rest =>
    .newFunction name :: .newComputePipelineState (opLibrary.newFunction name) ::
      callsFor opLibrary rest

/-- The line printed when the pipeline of `name` could not be created (lines 48-50). -/
def failureLine (name description : String) : String :=
  "Failed to created pipeline state object for " ++ name ++ ", error " ++ description

/-! ## What the encoder has recorded at each dispatch -/

/-- One encoded kernel invocation: the pipeline and the argument table (argument index,
buffer, offset) in force when `dispatchThreads` was called, and the two sizes passed. -/
structure Invocation where
  pipeline : Option ComputePipelineState
  buffers : List (Nat × Buffer × Nat)
  threadsPerGrid : Size
  threadsPerThreadgroup : Size
  deriving DecidableEq, Repr

/-- The call `setBuffer(buffer, offset, index)` on the argument table: the slot `index`
is overwritten, or added after the slots already bound. -/
def bindBuffer : List (Nat × Buffer × Nat) → Nat → Buffer → Nat → List (Nat × Buffer × Nat)
  | [], index, buffer, offset => [(index, buffer, offset)]
  | (i, b, o) :: rest, index, buffer, offset =>
    if i = index then (i, buffer, offset) :: rest
    else (i, b, o) :: bindBuffer rest index buffer offset

/-- The invocations a command sequence encodes, given the pipeline and argument table
currently set on the encoder. A new encoder starts with nothing bound. -/
def invocationsFrom (pipeline : Option ComputePipelineState)
    (buffers : List (Nat × Buffer × Nat)) : List Command → List Invocation
  | [] => []
  | .computeCommandEncoder :: rest => invocationsFrom none [] rest
  | .setComputePipelineState p :: rest => invocationsFrom p buffers rest
  | .setBuffer buffer offset index :: rest =>
    invocationsFrom pipeline (bindBuffer buffers index buffer offset) rest
  | .dispatchThreads grid group :: rest =>
    { pipeline := pipeline, buffers := buffers, threadsPerGrid := grid,
      threadsPerThreadgroup := group } :: invocationsFrom pipeline buffers rest
  | _ :: rest => invocationsFrom pipeline buffers rest

/-- The invocations encoded by the commands of one operation. -/
def invocations (commands : List Command) : List Invocation :=
  invocationsFrom none [] commands

/-- Buffers bound at offset 0 to consecutive argument indices starting at `first`. -/
def positional : Nat → List Buffer → List (Nat × Buffer × Nat)
  | _, [] => []
  | first, b :: rest => (first, b, 0) :: positional (first + 1) rest

/-- The binding table of the specification: for each operation, the kernels it invokes in
order, each with the buffers of the call in the positional order of the table. -/
def Call.bindingTable : Call → List (String × List Buffer)
  | .addArrays x y r _ => [("add_arrays", [x, y, r])]
  | .multiplyArrays x y r _ => [("multiply_arrays", [x, y, r])]
  | .addMultiply x y r _ => [("add_arrays", [x, y, r]), ("multiply_arrays", [r, y, r])]
  | .saxpyArrays alpha x y r _ => [("saxpy", [alpha, x, y, r])]
  | .central_difference delta x r _ => [("central_difference", [delta, x, r])]

/-- Commands addressed to the compute encoder between its creation and `endEncoding`. -/
def Command.isEncoding : Command → Bool
  | .setComputePipelineState _ => true
  | .setBuffer _ _ _ => true
  | .dispatchThreads _ _ => true
  | _ => false

/-! ## Device memory and the two elementwise kernels -/

/-- Device memory: the element stored at each index of each buffer. -/
abbrev Memory (α : Type) := Buffer → Nat → α

/-- Store `value` at `index` of `buffer`. -/
def Memory.write {α : Type} (mem : Memory α) (buffer : Buffer) (index : Nat) (value : α) :
    Memory α :=
  fun b j => if b = buffer ∧ j = index then value else mem b j

/-- The buffer bound to an argument index of an invocation. -/
def Invocation.argument (inv : Invocation) (index : Nat) : Option Buffer :=
  (inv.buffers.find? (fun slot => slot.1 == index)).map (fun slot => slot.2.1)

/-- Modelled from the spec: the kernel sources (`ops.metal`) are not part of the
translated files. `add_arrays` computes the sum and `multiply_arrays` the product of
its first two arguments, element by element; the element arithmetic is whatever `+`
and `*` are on the element type. -/
def kernelArithmetic {α : Type} [Add α] [Mul α] (name : String) : Option (α → α → α) :=
  if name = "add_arrays" then some (fun a b => a + b)
  else if name = "multiply_arrays" then some (fun a b => a * b)
  else none

/-- Modelled from the spec: thread `i` of an elementwise kernel reads element `i` of
the buffers bound to arguments 0 and 1 and writes the result to element `i` of the
buffer bound to argument 2. -/
def elementwiseThread {α : Type} (op : α → α → α) (a b out : Buffer) (mem : Memory α)
    (i : Nat) : Memory α :=
  mem.write out i (op (mem a i) (mem b i))

/-- Modelled from the spec: one invocation runs one thread for each index below the grid
width. Only the two elementwise kernels are given a meaning; any other invocation, or
one without a pipeline or with an argument missing, has none. -/
def runInvocation {α : Type} [Add α] [Mul α] (inv : Invocation) (mem : Memory α) :
    Option (Memory α) :=
  match inv.pipeline, inv.argument 0, inv.argument 1, inv.argument 2 with
  | some pipeline, some a, some b, some out =>
    match kernelArithmetic pipeline.function.name with
    | some op =>
      some ((List.range inv.threadsPerGrid.width).foldl (elementwiseThread op a b out) mem)
    | none => none
  | _, _, _, _ => none

/-- Modelled from the spec: the dispatches of one encoder take effect one after the
other in the order in which they were encoded. -/
def execute {α : Type} [Add α] [Mul α] : List Invocation → Memory α → Option (Memory α)
  | [], mem => some mem
  | inv :: rest, mem =>
    match runInvocation inv mem with
    | some mem1 => execute rest mem1
    | none => none

/-! ## Concrete devices used in the examples -/

/-- A library exporting the given kernel names. -/
def libraryOf (names : List String) : Library :=
  { functionNames := names, newFunction := fun name => some ⟨name⟩ }

/-- A command queue that always hands out a command buffer and an encoder. -/
def workingQueue : CommandQueue := ⟨some ⟨some ⟨⟩⟩⟩

/-- A device whose library exports `names`, on which every kernel compiles, with limit 512
for `multiply_arrays` and 1024 for every other kernel. -/
def deviceOf (names : List String) : Device :=
  { newLibrary := fun _ => .ok (libraryOf names)
    newComputePipelineState := fun fn =>
      match fn with
      | some f => .ok ⟨f, if f.name = "multiply_arrays" then 512 else 1024⟩
      | none => .error "function is nil"
    newCommandQueue := some workingQueue }

/-- The four kernels the dispatch operations refer to. -/
def allKernels : List String := ["add_arrays", "multiply_arrays", "saxpy", "central_difference"]

/-- The engine built from a library exporting all four kernels. -/
def fullEngine : MetalOperations := (MetalOperations.new (deviceOf allKernels)).engine

/-- A device whose library exports every kernel but `multiply_arrays`. -/
def threeKernelDevice : Device := deviceOf ["add_arrays", "saxpy", "central_difference"]

/-- Device memory of the scenario: buffer 0 holds X = [1, 2, 3, 4], buffer 1 holds
Y = [10, 20, 30, 40], every other element is 0. -/
def scenarioMemory : Memory Int := fun buffer i =>
  if buffer.id = 0 then [1, 2, 3, 4].getD i 0
  else if buffer.id = 1 then [10, 20, 30, 40].getD i 0
  else 0

/-- A device on which the library cannot be loaded. -/
def noLibraryDevice : Device :=
  { newLibrary := fun _ => .error "library not found"
    newComputePipelineState := fun _ => .error "unused"
    newCommandQueue := some workingQueue }

/-- A device on which `multiply_arrays` fails to compile and every other kernel compiles. -/
def brokenMultiplyDevice : Device :=
  { newLibrary := fun _ => .ok (libraryOf allKernels)
    newComputePipelineState := fun fn =>
      match fn with
      | some f => if f.name = "multiply_arrays" then .error "compile failed" else .ok ⟨f, 1024⟩
      | none => .error "function is nil"
    newCommandQueue := some workingQueue }


/-! ## Lemmas on the map operations -/

theorem StdMap.find_assign_self {V : Type} (m : StdMap V) (key : String) (v : V) :
    StdMap.find (StdMap.assign m key v) key = some v := by
  induction m with
  | nil => simp [StdMap.assign, StdMap.find]
  | cons e rest ih =>
    obtain ⟨k, w⟩ := e
    by_cases h : k = key
    · simp [StdMap.assign, StdMap.find, h]
    · simp [StdMap.assign, StdMap.find, h, ih]

theorem StdMap.find_assign_ne {V : Type} (m : StdMap V) (key other : String) (v : V)
    (h : key ≠ other) : StdMap.find (StdMap.assign m key v) other = StdMap.find m other := by
  induction m with
  | nil => simp [StdMap.assign, StdMap.find, h]
  | cons e rest ih =>
    obtain ⟨k, w⟩ := e
    by_cases hk : k = key
    · subst hk
      simp [StdMap.assign, StdMap.find, h]
    · by_cases ho : k = other
      · subst ho
        simp [StdMap.assign, StdMap.find, hk]
      · simp [StdMap.assign, StdMap.find, hk, ho, ih]

theorem StdMap.subscript_of_find {V : Type} (m : StdMap (Option V)) (key : String)
    (v : Option V) (h : StdMap.find m key = some v) : StdMap.subscript m key = (v, m) := by
  simp [StdMap.subscript, h]

theorem StdMap.subscript_assign {V : Type} (m : StdMap (Option V)) (key : String)
    (v : Option V) :
    StdMap.subscript (StdMap.assign m key v) key = (v, StdMap.assign m key v) :=
  StdMap.subscript_of_find _ _ _ (StdMap.find_assign_self m key v)

theorem StdMap.find_append {V : Type} (m : StdMap V) (key other : String) (v : V) :
    StdMap.find (m ++ [(key, v)]) other =
      (StdMap.find m other).orElse (fun _ => if key = other then some v else none) := by
  induction m with
  | nil => simp [StdMap.find]
  | cons e rest ih =>
    obtain ⟨k, w⟩ := e
    by_cases hk : k = other
    · simp [StdMap.find, hk]
    · simp [StdMap.find, hk, ih]

/-- Reading a key that is present leaves the map as it is. -/
theorem StdMap.subscript_snd_of_present {V : Type} (m : StdMap (Option V)) (key : String)
    (h : StdMap.find m key ≠ none) : (StdMap.subscript m key).2 = m := by
  unfold StdMap.subscript
  cases hf : StdMap.find m key with
  | none => exact absurd hf h
  | some v => rfl

/-- After `m[key]` has been read once the key is present. -/
theorem StdMap.find_subscript_self {V : Type} (m : StdMap (Option V)) (key : String) :
    StdMap.find (StdMap.subscript m key).2 key = some (StdMap.subscript m key).1 := by
  unfold StdMap.subscript
  cases hf : StdMap.find m key with
  | none => simp [StdMap.find_append, hf]
  | some v => simp [hf]

/-- Reading `m[key]` a second time returns the same pointer and changes nothing. -/
theorem StdMap.subscript_subscript {V : Type} (m : StdMap (Option V)) (key : String) :
    StdMap.subscript (StdMap.subscript m key).2 key =
      ((StdMap.subscript m key).1, (StdMap.subscript m key).2) :=
  StdMap.subscript_of_find _ _ _ (StdMap.find_subscript_self m key)

/-- Reading another key does not disturb the presence of a key. -/
theorem StdMap.find_subscript_of_present {V : Type} (m : StdMap (Option V))
    (key other : String) (h : StdMap.find m other ≠ none) :
    StdMap.find (StdMap.subscript m key).2 other = StdMap.find m other := by
  unfold StdMap.subscript
  cases hf : StdMap.find m key with
  | none =>
    cases ho : StdMap.find m other with
    | none => exact absurd ho h
    | some w => simp [StdMap.find_append, ho]
  | some v => rfl


/-! ## The operations on an engine that can encode -/

/-- The clamp is the minimum of the element count and the pipeline limit. -/
theorem clampThreadGroupSize_eq_min (limit arrayLength : Nat) :
    clampThreadGroupSize limit arrayLength = min arrayLength limit := by
  unfold clampThreadGroupSize
  split <;> omega

theorem addArrays_run (m : MetalOperations) (x y r : Buffer) (n : Nat)
    (p : ComputePipelineState) (hq : m.CanEncode)
    (hp : StdMap.find m.functionPipelineMap "add_arrays" = some (some p)) :
    m.addArrays x y r n =
      { state := m
        commands := [.commandBuffer, .computeCommandEncoder,
          .setComputePipelineState (some p), .setBuffer x 0 0, .setBuffer y 0 1,
          .setBuffer r 0 2,
          .dispatchThreads (Size.Make n 1 1)
            (Size.Make (clampThreadGroupSize p.maxTotalThreadsPerThreadgroup n) 1 1),
          .endEncoding, .commit, .waitUntilCompleted]
        fault := none } := by
  unfold MetalOperations.CanEncode at hq
  simp [MetalOperations.addArrays, hq, StdMap.subscript_of_find _ _ _ hp]

theorem multiplyArrays_run (m : MetalOperations) (x y r : Buffer) (n : Nat)
    (p : ComputePipelineState) (hq : m.CanEncode)
    (hp : StdMap.find m.functionPipelineMap "multiply_arrays" = some (some p)) :
    m.multiplyArrays x y r n =
      { state := m
        commands := [.commandBuffer, .computeCommandEncoder,
          .setComputePipelineState (some p), .setBuffer x 0 0, .setBuffer y 0 1,
          .setBuffer r 0 2,
          .dispatchThreads (Size.Make n 1 1)
            (Size.Make (clampThreadGroupSize p.maxTotalThreadsPerThreadgroup n) 1 1),
          .endEncoding, .commit, .waitUntilCompleted]
        fault := none } := by
  unfold MetalOperations.CanEncode at hq
  simp [MetalOperations.multiplyArrays, hq, StdMap.subscript_of_find _ _ _ hp]

theorem saxpyArrays_run (m : MetalOperations) (alpha x y r : Buffer) (n : Nat)
    (p : ComputePipelineState) (hq : m.CanEncode)
    (hp : StdMap.find m.functionPipelineMap "saxpy" = some (some p)) :
    m.saxpyArrays alpha x y r n =
      { state := m
        commands := [.commandBuffer, .computeCommandEncoder,
          .setComputePipelineState (some p), .setBuffer alpha 0 0, .setBuffer x 0 1,
          .setBuffer y 0 2, .setBuffer r 0 3,
          .dispatchThreads (Size.Make n 1 1)
            (Size.Make (clampThreadGroupSize p.maxTotalThreadsPerThreadgroup n) 1 1),
          .endEncoding, .commit, .waitUntilCompleted]
        fault := none } := by
  unfold MetalOperations.CanEncode at hq
  simp [MetalOperations.saxpyArrays, hq, StdMap.subscript_of_find _ _ _ hp]

theorem central_difference_run (m : MetalOperations) (delta x r : Buffer) (n : Nat)
    (p : ComputePipelineState) (hq : m.CanEncode)
    (hp : StdMap.find m.functionPipelineMap "central_difference" = some (some p)) :
    m.central_difference delta x r n =
      { state := m
        commands := [.commandBuffer, .computeCommandEncoder,
          .setComputePipelineState (some p), .setBuffer delta 0 0, .setBuffer x 0 1,
          .setBuffer r 0 2,
          .dispatchThreads (Size.Make n 1 1)
            (Size.Make (clampThreadGroupSize p.maxTotalThreadsPerThreadgroup n) 1 1),
          .endEncoding, .commit, .waitUntilCompleted]
        fault := none } := by
  unfold MetalOperations.CanEncode at hq
  simp [MetalOperations.central_difference, hq, StdMap.subscript_of_find _ _ _ hp]

/-- The compound operation needs only the `add_arrays` pipeline to run to its end; the
second pipeline is whatever `functionPipelineMap["multiply_arrays"]` evaluates to. -/
theorem addMultiply_run (m : MetalOperations) (x y r : Buffer) (n : Nat)
    (p : ComputePipelineState) (hq : m.CanEncode)
    (hp : StdMap.find m.functionPipelineMap "add_arrays" = some (some p)) :
    m.addMultiply x y r n =
      { state := { m with functionPipelineMap :=
          (StdMap.subscript m.functionPipelineMap "multiply_arrays").2 }
        commands := [.commandBuffer, .computeCommandEncoder,
          .setComputePipelineState (some p), .setBuffer x 0 0, .setBuffer y 0 1,
          .setBuffer r 0 2,
          .dispatchThreads (Size.Make n 1 1)
            (Size.Make (clampThreadGroupSize p.maxTotalThreadsPerThreadgroup n) 1 1),
          .setComputePipelineState (m.pipelineAt "multiply_arrays"),
          .setBuffer r 0 0, .setBuffer y 0 1, .setBuffer r 0 2,
          .dispatchThreads (Size.Make n 1 1)
            (Size.Make (clampThreadGroupSize p.maxTotalThreadsPerThreadgroup n) 1 1),
          .endEncoding, .commit, .waitUntilCompleted]
        fault := none } := by
  unfold MetalOperations.CanEncode at hq
  simp [MetalOperations.addMultiply, hq, StdMap.subscript_of_find _ _ _ hp,
    MetalOperations.pipelineAt]


theorem pipelineAt_of_find (m : MetalOperations) (name : String) (p : Option ComputePipelineState)
    (h : StdMap.find m.functionPipelineMap name = some p) : m.pipelineAt name = p := by
  simp [MetalOperations.pipelineAt, StdMap.subscript_of_find _ _ _ h]

/-! ## Submission protocol -/

/-- C9: on an engine that can encode and whose cache holds the kernels the call names,
every operation runs to its end and issues exactly this command sequence: one
`commandBuffer`, one `computeCommandEncoder`, a body made only of encoder commands that
encodes one invocation per kernel name of the call in order (`add_arrays` before
`multiply_arrays` for addMultiply), then `endEncoding`, `commit`, and
`waitUntilCompleted` as the last command. -/
theorem submission_protocol (m : MetalOperations) (c : Call) (hq : m.CanEncode)
    (hk : ∀ name ∈ c.kernelNames, m.Cached name) :
    (m.perform c).fault = none ∧
    ∃ body : List Command,
      (m.perform c).commands =
        [Command.commandBuffer, Command.computeCommandEncoder] ++ body ++
          [Command.endEncoding, Command.commit, Command.waitUntilCompleted] ∧
      body.all Command.isEncoding = true ∧
      (invocations body).map (fun inv => inv.pipeline) = c.kernelNames.map m.pipelineAt := by
  cases c with
  | addArrays x y r n =>
    obtain ⟨p, hp⟩ := hk "add_arrays" (by simp [Call.kernelNames])
    rw [MetalOperations.perform, addArrays_run m x y r n p hq hp]
    refine ⟨rfl, [.setComputePipelineState (some p), .setBuffer x 0 0, .setBuffer y 0 1, .setBuffer r 0 2,
      .dispatchThreads (Size.Make n 1 1) (Size.Make (clampThreadGroupSize p.maxTotalThreadsPerThreadgroup n) 1 1)], rfl, ?_, ?_⟩
    · simp [Command.isEncoding]
    · simp [invocations, invocationsFrom, Call.kernelNames, pipelineAt_of_find m _ _ hp]
  | multiplyArrays x y r n =>
    obtain ⟨p, hp⟩ := hk "multiply_arrays" (by simp [Call.kernelNames])
    rw [MetalOperations.perform, multiplyArrays_run m x y r n p hq hp]
    refine ⟨rfl, [.setComputePipelineState (some p), .setBuffer x 0 0, .setBuffer y 0 1, .setBuffer r 0 2,
      .dispatchThreads (Size.Make n 1 1) (Size.Make (clampThreadGroupSize p.maxTotalThreadsPerThreadgroup n) 1 1)], rfl, ?_, ?_⟩
    · simp [Command.isEncoding]
    · simp [invocations, invocationsFrom, Call.kernelNames, pipelineAt_of_find m _ _ hp]
  | addMultiply x y r n =>
    obtain ⟨p, hp⟩ := hk "add_arrays" (by simp [Call.kernelNames])
    rw [MetalOperations.perform, addMultiply_run m x y r n p hq hp]
    refine ⟨rfl, [.setComputePipelineState (some p), .setBuffer x 0 0, .setBuffer y 0 1, .setBuffer r 0 2,
      .dispatchThreads (Size.Make n 1 1) (Size.Make (clampThreadGroupSize p.maxTotalThreadsPerThreadgroup n) 1 1),
      .setComputePipelineState (m.pipelineAt "multiply_arrays"), .setBuffer r 0 0, .setBuffer y 0 1,
      .setBuffer r 0 2, .dispatchThreads (Size.Make n 1 1) (Size.Make (clampThreadGroupSize p.maxTotalThreadsPerThreadgroup n) 1 1)], rfl, ?_, ?_⟩
    · simp [Command.isEncoding]
    · simp [invocations, invocationsFrom, Call.kernelNames, pipelineAt_of_find m _ _ hp]
  | saxpyArrays a x y r n =>
    obtain ⟨p, hp⟩ := hk "saxpy" (by simp [Call.kernelNames])
    rw [MetalOperations.perform, saxpyArrays_run m a x y r n p hq hp]
    refine ⟨rfl, [.setComputePipelineState (some p), .setBuffer a 0 0, .setBuffer x 0 1, .setBuffer y 0 2, .setBuffer r 0 3,
      .dispatchThreads (Size.Make n 1 1) (Size.Make (clampThreadGroupSize p.maxTotalThreadsPerThreadgroup n) 1 1)], rfl, ?_, ?_⟩
    · simp [Command.isEncoding]
    · simp [invocations, invocationsFrom, Call.kernelNames, pipelineAt_of_find m _ _ hp]
  | central_difference d x r n =>
    obtain ⟨p, hp⟩ := hk "central_difference" (by simp [Call.kernelNames])
    rw [MetalOperations.perform, central_difference_run m d x r n p hq hp]
    refine ⟨rfl, [.setComputePipelineState (some p), .setBuffer d 0 0, .setBuffer x 0 1, .setBuffer r 0 2,
      .dispatchThreads (Size.Make n 1 1) (Size.Make (clampThreadGroupSize p.maxTotalThreadsPerThreadgroup n) 1 1)], rfl, ?_, ?_⟩
    · simp [Command.isEncoding]
    · simp [invocations, invocationsFrom, Call.kernelNames, pipelineAt_of_find m _ _ hp]

/-! ## Buffer binding -/

/-- C2: on an engine that can encode and whose cache holds the kernels the call names,
the invocations an operation encodes are those of the binding table: each is bound to
the pipeline cached under the kernel name of its row, with the buffers of the row at
offset 0 on the argument indices 0, 1, 2, ... in the order of the row. -/
theorem bindings_follow_table (m : MetalOperations) (c : Call) (hq : m.CanEncode)
    (hk : ∀ name ∈ c.kernelNames, m.Cached name) :
    (invocations (m.perform c).commands).map (fun inv => (inv.pipeline, inv.buffers)) =
      c.bindingTable.map (fun row => (m.pipelineAt row.1, positional 0 row.2)) := by
  cases c with
  | addArrays x y r n =>
    obtain ⟨p, hp⟩ := hk "add_arrays" (by simp [Call.kernelNames])
    rw [MetalOperations.perform, addArrays_run m x y r n p hq hp]
    simp [invocations, invocationsFrom, bindBuffer, Call.bindingTable, positional,
      pipelineAt_of_find m _ _ hp]
  | multiplyArrays x y r n =>
    obtain ⟨p, hp⟩ := hk "multiply_arrays" (by simp [Call.kernelNames])
    rw [MetalOperations.perform, multiplyArrays_run m x y r n p hq hp]
    simp [invocations, invocationsFrom, bindBuffer, Call.bindingTable, positional,
      pipelineAt_of_find m _ _ hp]
  | addMultiply x y r n =>
    obtain ⟨p, hp⟩ := hk "add_arrays" (by simp [Call.kernelNames])
    rw [MetalOperations.perform, addMultiply_run m x y r n p hq hp]
    simp [invocations, invocationsFrom, bindBuffer, Call.bindingTable, positional,
      pipelineAt_of_find m _ _ hp]
  | saxpyArrays a x y r n =>
    obtain ⟨p, hp⟩ := hk "saxpy" (by simp [Call.kernelNames])
    rw [MetalOperations.perform, saxpyArrays_run m a x y r n p hq hp]
    simp [invocations, invocationsFrom, bindBuffer, Call.bindingTable, positional,
      pipelineAt_of_find m _ _ hp]
  | central_difference d x r n =>
    obtain ⟨p, hp⟩ := hk "central_difference" (by simp [Call.kernelNames])
    rw [MetalOperations.perform, central_difference_run m d x r n p hq hp]
    simp [invocations, invocationsFrom, bindBuffer, Call.bindingTable, positional,
      pipelineAt_of_find m _ _ hp]


/-- The protocol on the engine built from the full library, for addMultiply. -/
theorem submission_protocol_witness :
    (fullEngine.perform (.addMultiply ⟨0⟩ ⟨1⟩ ⟨2⟩ 4)).fault = none ∧
    ∃ body : List Command,
      (fullEngine.perform (.addMultiply ⟨0⟩ ⟨1⟩ ⟨2⟩ 4)).commands =
        [Command.commandBuffer, Command.computeCommandEncoder] ++ body ++
          [Command.endEncoding, Command.commit, Command.waitUntilCompleted] ∧
      body.all Command.isEncoding = true ∧
      (invocations body).map (fun inv => inv.pipeline) =
        (Call.addMultiply ⟨0⟩ ⟨1⟩ ⟨2⟩ 4).kernelNames.map fullEngine.pipelineAt :=
  submission_protocol fullEngine (.addMultiply ⟨0⟩ ⟨1⟩ ⟨2⟩ 4) rfl (by
    intro name h
    simp [Call.kernelNames] at h
    rcases h with rfl | rfl
    · exact ⟨_, rfl⟩
    · exact ⟨_, rfl⟩)

/-- The binding table on the engine built from the full library, for saxpyArrays. -/
theorem bindings_follow_table_witness :
    (invocations (fullEngine.perform (.saxpyArrays ⟨7⟩ ⟨0⟩ ⟨1⟩ ⟨2⟩ 4)).commands).map
        (fun inv => (inv.pipeline, inv.buffers)) =
      (Call.saxpyArrays ⟨7⟩ ⟨0⟩ ⟨1⟩ ⟨2⟩ 4).bindingTable.map
        (fun row => (fullEngine.pipelineAt row.1, positional 0 row.2)) :=
  bindings_follow_table fullEngine (.saxpyArrays ⟨7⟩ ⟨0⟩ ⟨1⟩ ⟨2⟩ 4) rfl (by
    intro name h
    simp [Call.kernelNames] at h
    subst h
    exact ⟨_, rfl⟩)

/-! ## Every path through an operation -/

theorem acquireEncoder_cases (m : MetalOperations) :
    m.CanEncode ∨ ∃ issued fault, acquireEncoder m = .error (issued, fault) ∧
      invocations issued = [] := by
  unfold MetalOperations.CanEncode acquireEncoder
  cases h1 : m._mCommandQueue with
  | none => right; exact ⟨[], .noCommandQueue, by simp, rfl⟩
  | some queue =>
    cases h2 : queue.commandBuffer with
    | none => right; exact ⟨[.commandBuffer], .commandBufferAssert, by simp [h2], rfl⟩
    | some buffer =>
      cases h3 : buffer.computeCommandEncoder with
      | none =>
        right
        exact ⟨[.commandBuffer, .computeCommandEncoder], .computeEncoderAssert,
          by simp [h2, h3], rfl⟩
      | some encoder => left; simp [h2, h3]

theorem find_of_subscript_some {V : Type} (m : StdMap (Option V)) (key : String) (v : V)
    (h : (StdMap.subscript m key).1 = some v) : StdMap.find m key = some (some v) := by
  unfold StdMap.subscript at h
  cases hf : StdMap.find m key with
  | none => simp [hf] at h
  | some w =>
    simp [hf] at h
    rw [h]

/-- An operation either stops before any dispatch, or the engine can encode and the
pipeline whose limit the operation queries (the first kernel it names) is cached. -/
theorem perform_cases (m : MetalOperations) (c : Call) :
    (invocations (m.perform c).commands = [] ∧ (m.perform c).fault ≠ none) ∨
    (m.CanEncode ∧ ∃ name p, c.kernelNames.head? = some name ∧
      StdMap.find m.functionPipelineMap name = some (some p)) := by
  rcases acquireEncoder_cases m with hq | ⟨issued, fault, he, hi⟩
  · cases c with
    | addArrays x y r n =>
      cases hp : (StdMap.subscript m.functionPipelineMap "add_arrays").1 with
      | none =>
        left
        unfold MetalOperations.CanEncode at hq
        simp [MetalOperations.perform, MetalOperations.addArrays, hq, StdMap.subscript_subscript,
          hp, invocations, invocationsFrom]
      | some p => exact Or.inr ⟨hq, "add_arrays", p, rfl, find_of_subscript_some _ _ _ hp⟩
    | multiplyArrays x y r n =>
      cases hp : (StdMap.subscript m.functionPipelineMap "multiply_arrays").1 with
      | none =>
        left
        unfold MetalOperations.CanEncode at hq
        simp [MetalOperations.perform, MetalOperations.multiplyArrays, hq, StdMap.subscript_subscript,
          hp, invocations, invocationsFrom]
      | some p => exact Or.inr ⟨hq, "multiply_arrays", p, rfl, find_of_subscript_some _ _ _ hp⟩
    | addMultiply x y r n =>
      cases hp : (StdMap.subscript m.functionPipelineMap "add_arrays").1 with
      | none =>
        left
        unfold MetalOperations.CanEncode at hq
        simp [MetalOperations.perform, MetalOperations.addMultiply, hq, StdMap.subscript_subscript,
          hp, invocations, invocationsFrom]
      | some p => exact Or.inr ⟨hq, "add_arrays", p, rfl, find_of_subscript_some _ _ _ hp⟩
    | saxpyArrays a x y r n =>
      cases hp : (StdMap.subscript m.functionPipelineMap "saxpy").1 with
      | none =>
        left
        unfold MetalOperations.CanEncode at hq
        simp [MetalOperations.perform, MetalOperations.saxpyArrays, hq, StdMap.subscript_subscript,
          hp, invocations, invocationsFrom]
      | some p => exact Or.inr ⟨hq, "saxpy", p, rfl, find_of_subscript_some _ _ _ hp⟩
    | central_difference d x r n =>
      cases hp : (StdMap.subscript m.functionPipelineMap "central_difference").1 with
      | none =>
        left
        unfold MetalOperations.CanEncode at hq
        simp [MetalOperations.perform, MetalOperations.central_difference, hq, StdMap.subscript_subscript,
          hp, invocations, invocationsFrom]
      | some p => exact Or.inr ⟨hq, "central_difference", p, rfl, find_of_subscript_some _ _ _ hp⟩
  · left
    cases c <;>
      simp [MetalOperations.perform, MetalOperations.addArrays, MetalOperations.multiplyArrays,
        MetalOperations.addMultiply, MetalOperations.saxpyArrays,
        MetalOperations.central_difference, he, hi]

/-- Every invocation an operation encodes has the grid `(arrayLength, 1, 1)`. -/
theorem grid_of_invocation (m : MetalOperations) (c : Call) (inv : Invocation)
    (hinv : inv ∈ invocations (m.perform c).commands) :
    inv.threadsPerGrid = Size.Make c.arrayLength 1 1 := by
  rcases perform_cases m c with ⟨hnone, _⟩ | ⟨hq, name, p, hname, hp⟩
  · rw [hnone] at hinv
    exact absurd hinv (List.not_mem_nil _)
  · cases c with
    | addArrays x y r n =>
      simp [Call.kernelNames] at hname
      subst hname
      rw [MetalOperations.perform, addArrays_run m x y r n p hq hp] at hinv
      simp [invocations, invocationsFrom] at hinv
      simp [hinv, Call.arrayLength]
    | multiplyArrays x y r n =>
      simp [Call.kernelNames] at hname
      subst hname
      rw [MetalOperations.perform, multiplyArrays_run m x y r n p hq hp] at hinv
      simp [invocations, invocationsFrom] at hinv
      simp [hinv, Call.arrayLength]
    | addMultiply x y r n =>
      simp [Call.kernelNames] at hname
      subst hname
      rw [MetalOperations.perform, addMultiply_run m x y r n p hq hp] at hinv
      simp [invocations, invocationsFrom] at hinv
      rcases hinv with h | h <;> simp [h, Call.arrayLength]
    | saxpyArrays a x y r n =>
      simp [Call.kernelNames] at hname
      subst hname
      rw [MetalOperations.perform, saxpyArrays_run m a x y r n p hq hp] at hinv
      simp [invocations, invocationsFrom] at hinv
      simp [hinv, Call.arrayLength]
    | central_difference d x r n =>
      simp [Call.kernelNames] at hname
      subst hname
      rw [MetalOperations.perform, central_difference_run m d x r n p hq hp] at hinv
      simp [invocations, invocationsFrom] at hinv
      simp [hinv, Call.arrayLength]

/-! ## Dispatch shape -/

/-- For the four single-kernel operations the threadgroup of the dispatch is the minimum
of the element count and the limit of the pipeline bound for that dispatch. -/
theorem single_dispatch_shape (m : MetalOperations) (c : Call)
    (hc : ∀ x y r n, c ≠ .addMultiply x y r n)
    (inv : Invocation) (hinv : inv ∈ invocations (m.perform c).commands) :
    ∃ p, inv.pipeline = some p ∧
      inv.threadsPerThreadgroup =
        Size.Make (min c.arrayLength p.maxTotalThreadsPerThreadgroup) 1 1 := by
  rcases perform_cases m c with ⟨hnone, _⟩ | ⟨hq, name, p, hname, hp⟩
  · rw [hnone] at hinv
    exact absurd hinv (List.not_mem_nil _)
  · cases c with
    | addMultiply x y r n => exact absurd rfl (hc x y r n)
    | addArrays x y r n =>
      simp [Call.kernelNames] at hname
      subst hname
      rw [MetalOperations.perform, addArrays_run m x y r n p hq hp] at hinv
      simp [invocations, invocationsFrom] at hinv
      exact ⟨p, by simp [hinv], by simp [hinv, clampThreadGroupSize_eq_min, Call.arrayLength]⟩
    | multiplyArrays x y r n =>
      simp [Call.kernelNames] at hname
      subst hname
      rw [MetalOperations.perform, multiplyArrays_run m x y r n p hq hp] at hinv
      simp [invocations, invocationsFrom] at hinv
      exact ⟨p, by simp [hinv], by simp [hinv, clampThreadGroupSize_eq_min, Call.arrayLength]⟩
    | saxpyArrays a x y r n =>
      simp [Call.kernelNames] at hname
      subst hname
      rw [MetalOperations.perform, saxpyArrays_run m a x y r n p hq hp] at hinv
      simp [invocations, invocationsFrom] at hinv
      exact ⟨p, by simp [hinv], by simp [hinv, clampThreadGroupSize_eq_min, Call.arrayLength]⟩
    | central_difference d x r n =>
      simp [Call.kernelNames] at hname
      subst hname
      rw [MetalOperations.perform, central_difference_run m d x r n p hq hp] at hinv
      simp [invocations, invocationsFrom] at hinv
      exact ⟨p, by simp [hinv], by simp [hinv, clampThreadGroupSize_eq_min, Call.arrayLength]⟩


theorem exists_of_present {V : Type} (m : StdMap V) (key : String)
    (h : StdMap.find m key ≠ none) : ∃ v, StdMap.find m key = some v := by
  cases hf : StdMap.find m key with
  | none => exact absurd hf h
  | some v => exact ⟨v, rfl⟩

/-- C1: evaluation at the failing input. On an engine whose `add_arrays` pipeline reports
a limit of 1024 threads and whose `multiply_arrays` pipeline reports 512, addMultiply
with 1000 elements dispatches both kernels with threadgroup `(1000, 1, 1)`; for the
second dispatch, bound to `multiply_arrays`, the minimum of the element count and the
limit of the bound pipeline is 512. -/
theorem addMultiply_second_threadgroup_ignores_bound_limit :
    (invocations (fullEngine.perform (.addMultiply ⟨0⟩ ⟨1⟩ ⟨2⟩ 1000)).commands).map
        (fun inv => (inv.pipeline, inv.threadsPerGrid, inv.threadsPerThreadgroup)) =
      [(some ⟨⟨"add_arrays"⟩, 1024⟩, Size.Make 1000 1 1, Size.Make 1000 1 1),
       (some ⟨⟨"multiply_arrays"⟩, 512⟩, Size.Make 1000 1 1, Size.Make 1000 1 1)] ∧
    Size.Make (min 1000 512) 1 1 ≠ Size.Make 1000 1 1 := by
  decide

/-- C10: in addMultiply both dispatches get the threadgroup `(t, 1, 1)` with `t` the
minimum of the element count and the limit of the `add_arrays` pipeline, whatever
pipeline (with whatever limit) is cached under `multiply_arrays` and bound for the
second dispatch. -/
theorem addMultiply_threadgroups (m : MetalOperations) (x y r : Buffer) (n : Nat)
    (pAdd pMul : ComputePipelineState) (hq : m.CanEncode)
    (hAdd : StdMap.find m.functionPipelineMap "add_arrays" = some (some pAdd))
    (hMul : StdMap.find m.functionPipelineMap "multiply_arrays" = some (some pMul)) :
    (invocations (m.addMultiply x y r n).commands).map
        (fun inv => (inv.pipeline, inv.threadsPerThreadgroup)) =
      [(some pAdd, Size.Make (min n pAdd.maxTotalThreadsPerThreadgroup) 1 1),
       (some pMul, Size.Make (min n pAdd.maxTotalThreadsPerThreadgroup) 1 1)] := by
  rw [addMultiply_run m x y r n pAdd hq hAdd]
  simp [invocations, invocationsFrom, clampThreadGroupSize_eq_min,
    pipelineAt_of_find m _ _ hMul]

/-- The threadgroups of addMultiply with limits 1024 and 512 and 1000 elements. -/
theorem addMultiply_threadgroups_witness :
    (invocations (fullEngine.addMultiply ⟨0⟩ ⟨1⟩ ⟨2⟩ 1000).commands).map
        (fun inv => (inv.pipeline, inv.threadsPerThreadgroup)) =
      [(some ⟨⟨"add_arrays"⟩, 1024⟩, Size.Make (min 1000 1024) 1 1),
       (some ⟨⟨"multiply_arrays"⟩, 512⟩, Size.Make (min 1000 1024) 1 1)] :=
  addMultiply_threadgroups fullEngine ⟨0⟩ ⟨1⟩ ⟨2⟩ 1000 ⟨⟨"add_arrays"⟩, 1024⟩
    ⟨⟨"multiply_arrays"⟩, 512⟩ rfl rfl rfl

/-! ## Grid size -/

/-- C4, as stated, fails: called with an element count of 0, addArrays issues a dispatch
whose grid is `(0, 1, 1)`. -/
theorem zero_length_dispatches_zero_grid :
    (invocations (fullEngine.perform (.addArrays ⟨0⟩ ⟨1⟩ ⟨2⟩ 0)).commands).map
        (fun inv => inv.threadsPerGrid) = [Size.Make 0 1 1] := by
  decide

/-- C4, amended: the grid of every dispatch an operation issues is `(arrayLength, 1, 1)`
for the element count the caller passed, so its width is zero exactly when the caller
passed zero. -/
theorem grid_equals_arrayLength (m : MetalOperations) (c : Call) (inv : Invocation)
    (hinv : inv ∈ invocations (m.perform c).commands) :
    inv.threadsPerGrid = Size.Make c.arrayLength 1 1 ∧
    (inv.threadsPerGrid.width = 0 ↔ c.arrayLength = 0) := by
  have h := grid_of_invocation m c inv hinv
  refine ⟨h, ?_⟩
  rw [h]
  simp [Size.Make]

/-- The grid of the dispatch of addArrays with 4 elements. -/
theorem grid_equals_arrayLength_witness :
    (Invocation.mk (some ⟨⟨"add_arrays"⟩, 1024⟩) [(0, ⟨0⟩, 0), (1, ⟨1⟩, 0), (2, ⟨2⟩, 0)]
        (Size.Make 4 1 1) (Size.Make 4 1 1)).threadsPerGrid =
      Size.Make (Call.addArrays ⟨0⟩ ⟨1⟩ ⟨2⟩ 4).arrayLength 1 1 ∧
    ((Invocation.mk (some ⟨⟨"add_arrays"⟩, 1024⟩) [(0, ⟨0⟩, 0), (1, ⟨1⟩, 0), (2, ⟨2⟩, 0)]
        (Size.Make 4 1 1) (Size.Make 4 1 1)).threadsPerGrid.width = 0 ↔
      (Call.addArrays ⟨0⟩ ⟨1⟩ ⟨2⟩ 4).arrayLength = 0) :=
  grid_equals_arrayLength fullEngine (.addArrays ⟨0⟩ ⟨1⟩ ⟨2⟩ 4) _ (by decide)

/-! ## The cache after construction -/

/-- C8, as stated, fails: the constructor run on a library without `multiply_arrays`
completes and leaves a cache without that key; addMultiply on that engine runs through
to its last line and leaves the key in the cache, mapped to a null pipeline. -/
theorem addMultiply_inserts_missing_kernel :
    (MetalOperations.new threeKernelDevice).ready = true ∧
    StdMap.find (MetalOperations.new threeKernelDevice).engine.functionPipelineMap
      "multiply_arrays" = none ∧
    ((MetalOperations.new threeKernelDevice).engine.perform
      (.addMultiply ⟨0⟩ ⟨1⟩ ⟨2⟩ 4)).fault = none ∧
    StdMap.find ((MetalOperations.new threeKernelDevice).engine.perform
      (.addMultiply ⟨0⟩ ⟨1⟩ ⟨2⟩ 4)).state.functionPipelineMap "multiply_arrays" =
        some none := by
  decide

/-- C8, amended: when every kernel name the operation indexes the cache with is already
a key of the cache, the cache after the call is the cache before it. -/
theorem cache_unchanged (m : MetalOperations) (c : Call)
    (hk : ∀ name ∈ c.kernelNames, StdMap.find m.functionPipelineMap name ≠ none) :
    (m.perform c).state.functionPipelineMap = m.functionPipelineMap := by
  cases c with
  | addMultiply x y r n =>
    obtain ⟨v, hv⟩ := exists_of_present _ _ (hk "add_arrays" (by simp [Call.kernelNames]))
    obtain ⟨w, hw⟩ := exists_of_present _ _ (hk "multiply_arrays" (by simp [Call.kernelNames]))
    simp only [MetalOperations.perform, MetalOperations.addMultiply,
      StdMap.subscript_of_find _ _ _ hv, StdMap.subscript_of_find _ _ _ hw]
    cases acquireEncoder m <;> cases v <;> rfl
  | addArrays x y r n =>
    obtain ⟨v, hv⟩ := exists_of_present _ _ (hk "add_arrays" (by simp [Call.kernelNames]))
    simp only [MetalOperations.perform, MetalOperations.addArrays,
      StdMap.subscript_of_find _ _ _ hv]
    cases acquireEncoder m <;> cases v <;> rfl
  | multiplyArrays x y r n =>
    obtain ⟨v, hv⟩ := exists_of_present _ _ (hk "multiply_arrays" (by simp [Call.kernelNames]))
    simp only [MetalOperations.perform, MetalOperations.multiplyArrays,
      StdMap.subscript_of_find _ _ _ hv]
    cases acquireEncoder m <;> cases v <;> rfl
  | saxpyArrays a x y r n =>
    obtain ⟨v, hv⟩ := exists_of_present _ _ (hk "saxpy" (by simp [Call.kernelNames]))
    simp only [MetalOperations.perform, MetalOperations.saxpyArrays,
      StdMap.subscript_of_find _ _ _ hv]
    cases acquireEncoder m <;> cases v <;> rfl
  | central_difference d x r n =>
    obtain ⟨v, hv⟩ := exists_of_present _ _ (hk "central_difference" (by simp [Call.kernelNames]))
    simp only [MetalOperations.perform, MetalOperations.central_difference,
      StdMap.subscript_of_find _ _ _ hv]
    cases acquireEncoder m <;> cases v <;> rfl

/-- The cache of the engine built from the full library survives addMultiply. -/
theorem cache_unchanged_witness :
    (fullEngine.perform (.addMultiply ⟨0⟩ ⟨1⟩ ⟨2⟩ 4)).state.functionPipelineMap =
      fullEngine.functionPipelineMap :=
  cache_unchanged fullEngine (.addMultiply ⟨0⟩ ⟨1⟩ ⟨2⟩ 4) (by
    intro name h
    simp [Call.kernelNames] at h
    rcases h with rfl | rfl <;> decide)


/-! ## The constructor loop -/

theorem loadPipelines_cons_ok (device : Device) (lib : Library) (name : String)
    (rest : List String) (c : Construction) (p : ComputePipelineState)
    (h : compile device lib name = .ok p) :
    loadPipelines device lib (name :: rest) c =
      loadPipelines device lib rest
        { engine :=
            { functionMap := StdMap.assign c.engine.functionMap name (lib.newFunction name)
              functionPipelineMap := StdMap.assign c.engine.functionPipelineMap name (some p)
              _mCommandQueue := c.engine._mCommandQueue },
          stdout := c.stdout ++ [name],
          calls := c.calls ++ [.newFunction name,
            .newComputePipelineState (lib.newFunction name)] } := by
  unfold compile at h
  simp [loadPipelines, StdMap.subscript_assign, h, pointerOf]

theorem loadPipelines_cons_error (device : Device) (lib : Library) (name : String)
    (rest : List String) (c : Construction) (e : String)
    (h : compile device lib name = .error e) :
    loadPipelines device lib (name :: rest) c =
      ({ engine :=
            { functionMap := StdMap.assign c.engine.functionMap name (lib.newFunction name)
              functionPipelineMap := StdMap.assign c.engine.functionPipelineMap name none
              _mCommandQueue := c.engine._mCommandQueue },
          stdout := c.stdout ++ [name, failureLine name e],
          calls := c.calls ++ [.newFunction name,
            .newComputePipelineState (lib.newFunction name)] }, false) := by
  unfold compile at h
  simp [loadPipelines, StdMap.subscript_assign, h, pointerOf, errorDescription, failureLine]

/-- When every name compiles the loop runs to its end. -/
theorem loadPipelines_all_ok (device : Device) (lib : Library) (names : List String)
    (c : Construction) (hall : ∀ name ∈ names, ∃ p, compile device lib name = .ok p) :
    loadPipelines device lib names c =
      ({ engine :=
            { functionMap := functionsInto lib names c.engine.functionMap
              functionPipelineMap := compiledInto device lib names c.engine.functionPipelineMap
              _mCommandQueue := c.engine._mCommandQueue },
          stdout := c.stdout ++ names,
          calls := c.calls ++ callsFor lib names }, true) := by
  induction names generalizing c with
  | nil => simp [loadPipelines, functionsInto, compiledInto, callsFor]
  | cons name rest ih =>
    obtain ⟨p, hp⟩ := hall name (by simp)
    rw [loadPipelines_cons_ok device lib name rest c p hp,
      ih _ (fun n hn => hall n (by simp [hn]))]
    simp [functionsInto, compiledInto, callsFor, hp, pointerOf]

/-- When the names `done` compile and the next one does not, the loop returns at the
failing name; the names after it play no part. -/
theorem loadPipelines_first_error (device : Device) (lib : Library)
    (done : List String) (name : String) (later : List String) (e : String)
    (c : Construction) (hall : ∀ n ∈ done, ∃ p, compile device lib n = .ok p)
    (herr : compile device lib name = .error e) :
    loadPipelines device lib (done ++ name :: later) c =
      ({ engine :=
            { functionMap := functionsInto lib (done ++ [name]) c.engine.functionMap
              functionPipelineMap :=
                compiledInto device lib (done ++ [name]) c.engine.functionPipelineMap
              _mCommandQueue := c.engine._mCommandQueue },
          stdout := c.stdout ++ (done ++ [name]) ++ [failureLine name e],
          calls := c.calls ++ callsFor lib (done ++ [name]) }, false) := by
  induction done generalizing c with
  | nil =>
    rw [List.nil_append, loadPipelines_cons_error device lib name later c e herr]
    simp [functionsInto, compiledInto, callsFor, herr, pointerOf]
  | cons first rest ih =>
    obtain ⟨p, hp⟩ := hall first (by simp)
    rw [List.cons_append, loadPipelines_cons_ok device lib first _ c p hp,
      ih _ (fun n hn => hall n (by simp [hn]))]
    simp [functionsInto, compiledInto, callsFor, hp, pointerOf]

/-- The cache after storing the compile results of `names`: a listed name maps to its
compile result, any other key is as before. -/
theorem find_compiledInto (device : Device) (lib : Library) (names : List String)
    (cache : StdMap (Option ComputePipelineState)) (key : String) :
    StdMap.find (compiledInto device lib names cache) key =
      if key ∈ names then some (pointerOf (compile device lib key))
      else StdMap.find cache key := by
  induction names generalizing cache with
  | nil => simp [compiledInto]
  | cons name rest ih =>
    rw [compiledInto, ih]
    by_cases hr : key ∈ rest
    · simp [hr]
    · by_cases hn : name = key
      · subst hn
        simp [hr, StdMap.find_assign_self]
      · have hn2 : ¬ key = name := fun h => hn h.symm
        simp [hr, hn2, StdMap.find_assign_ne _ _ _ _ hn]

theorem callsFor_append (lib : Library) (xs ys : List String) :
    callsFor lib (xs ++ ys) = callsFor lib xs ++ callsFor lib ys := by
  induction xs with
  | nil => rfl
  | cons x rest ih => simp [callsFor, ih]

theorem newCommandQueue_not_mem_callsFor (lib : Library) (names : List String) :
    DeviceCall.newCommandQueue ∉ callsFor lib names := by
  induction names with
  | nil => simp [callsFor]
  | cons x rest ih => simp [callsFor, ih]


/-! ## Construction failures -/

/-- C7: when the library cannot be loaded the constructor prints the backend's error
text after the fixed message and returns at once: the only device call made is
`newLibrary` (the function names are never asked for, and no name is printed), both
maps are empty, and no command queue is stored, so the engine is not Ready. -/
theorem library_load_failure (device : Device) (description : String)
    (h : device.newLibrary libraryPath = .error description) :
    (MetalOperations.new device).stdout =
      ["Failed to find the default library. Error: " ++ description] ∧
    (MetalOperations.new device).calls = [DeviceCall.newLibrary libraryPath] ∧
    (MetalOperations.new device).engine.functionMap = [] ∧
    (MetalOperations.new device).engine.functionPipelineMap = [] ∧
    (MetalOperations.new device).engine._mCommandQueue = none ∧
    (MetalOperations.new device).ready = false := by
  simp [MetalOperations.new, h, Construction.ready]

/-- Construction on a device that cannot load the library. -/
theorem library_load_failure_witness :
    (MetalOperations.new noLibraryDevice).stdout =
      ["Failed to find the default library. Error: " ++ "library not found"] ∧
    (MetalOperations.new noLibraryDevice).calls = [DeviceCall.newLibrary libraryPath] ∧
    (MetalOperations.new noLibraryDevice).engine.functionMap = [] ∧
    (MetalOperations.new noLibraryDevice).engine.functionPipelineMap = [] ∧
    (MetalOperations.new noLibraryDevice).engine._mCommandQueue = none ∧
    (MetalOperations.new noLibraryDevice).ready = false :=
  library_load_failure noLibraryDevice "library not found" rfl

theorem take_succ_eq (names : List String) (i : Nat) (name : String)
    (h : names[i]? = some name) : names.take (i + 1) = names.take i ++ [name] := by
  simp [List.take_succ, h]

theorem split_at_index (names : List String) (i : Nat) (name : String)
    (h : names[i]? = some name) : names = names.take i ++ name :: names.drop (i + 1) := by
  obtain ⟨hi, rfl⟩ := List.getElem?_eq_some_iff.1 h
  rw [List.getElem_cons_drop _ _ hi, List.take_append_drop]

theorem getElem?_of_mem_take (names : List String) (i : Nat) (name : String)
    (h : name ∈ names.take i) : ∃ k, k < i ∧ names[k]? = some name := by
  obtain ⟨k, hk⟩ := List.mem_iff_getElem?.1 h
  rw [List.getElem?_take] at hk
  by_cases hlt : k < i
  · exact ⟨k, hlt, by simpa [hlt] using hk⟩
  · simp [hlt] at hk

theorem mem_take_of_getElem? (names : List String) (k i : Nat) (name : String)
    (hk : k < i) (h : names[k]? = some name) : name ∈ names.take i := by
  refine List.mem_iff_getElem?.2 ⟨k, ?_⟩
  rw [List.getElem?_take]
  simp [hk, h]

/-- C6: when the kernels before position `i` compile and the compile of kernel `i`
(named `name`) fails with error text `e`, the constructor prints the names up to and
including kernel `i`, then the failure line naming kernel `i` with `e`, and returns:
every kernel before `i` is still cached with the pipeline compiled for it; the only keys
of the cache are names at positions up to `i`; the device calls are those for the names
up to `i` and nothing else, so no later kernel is compiled and `newCommandQueue` is
never called; no command queue is stored and the engine is not Ready. -/
theorem compile_failure_aborts (device : Device) (lib : Library) (i : Nat)
    (name e : String)
    (hlib : device.newLibrary libraryPath = .ok lib)
    (hname : lib.functionNames[i]? = some name)
    (hok : ∀ k earlier, k < i → lib.functionNames[k]? = some earlier →
      ∃ p, compile device lib earlier = .ok p)
    (herr : compile device lib name = .error e) :
    (MetalOperations.new device).stdout =
      "Available Metal functions in 'ops.metallib':" :: lib.functionNames.take (i + 1) ++
        ["Failed to created pipeline state object for " ++ name ++ ", error " ++ e] ∧
    (∀ k earlier, k < i → lib.functionNames[k]? = some earlier →
      ∃ p, compile device lib earlier = .ok p ∧
        StdMap.find (MetalOperations.new device).engine.functionPipelineMap earlier =
          some (some p)) ∧
    (∀ key, StdMap.find (MetalOperations.new device).engine.functionPipelineMap key ≠ none →
      key ∈ lib.functionNames.take (i + 1)) ∧
    (MetalOperations.new device).calls =
      [DeviceCall.newLibrary libraryPath, DeviceCall.functionNames] ++
        callsFor lib (lib.functionNames.take (i + 1)) ∧
    DeviceCall.newCommandQueue ∉ (MetalOperations.new device).calls ∧
    (MetalOperations.new device).engine._mCommandQueue = none ∧
    (MetalOperations.new device).ready = false := by
  have hall : ∀ n ∈ lib.functionNames.take i, ∃ p, compile device lib n = .ok p := by
    intro n hn
    obtain ⟨k, hk, hkn⟩ := getElem?_of_mem_take _ _ _ hn
    exact hok k n hk hkn
  have hrun := loadPipelines_first_error device lib (lib.functionNames.take i)
    name (lib.functionNames.drop (i + 1)) e
    { engine := { functionMap := [], functionPipelineMap := [], _mCommandQueue := none },
      stdout := ["Available Metal functions in 'ops.metallib':"],
      calls := [.newLibrary libraryPath, .functionNames] } hall herr
  rw [← split_at_index lib.functionNames i name hname,
    ← take_succ_eq lib.functionNames i name hname] at hrun
  have hnew : MetalOperations.new device =
      { engine :=
          { functionMap := functionsInto lib (lib.functionNames.take (i + 1)) [],
            functionPipelineMap := compiledInto device lib (lib.functionNames.take (i + 1)) [],
            _mCommandQueue := none },
        stdout := ["Available Metal functions in 'ops.metallib':"] ++
          lib.functionNames.take (i + 1) ++ [failureLine name e],
        calls := [.newLibrary libraryPath, .functionNames] ++
          callsFor lib (lib.functionNames.take (i + 1)) } := by
    simp only [MetalOperations.new, hlib, hrun]
  rw [hnew]
  refine ⟨by simp [failureLine], ?_, ?_, rfl, ?_, rfl, rfl⟩
  · intro k earlier hk hearlier
    obtain ⟨p, hp⟩ := hok k earlier hk hearlier
    refine ⟨p, hp, ?_⟩
    have hmem : earlier ∈ lib.functionNames.take (i + 1) :=
      mem_take_of_getElem? _ k (i + 1) earlier (by omega) hearlier
    simp [find_compiledInto, hmem, hp, pointerOf]
  · intro key hne
    by_contra hnot
    simp [find_compiledInto, hnot, StdMap.find] at hne
  · simp [newCommandQueue_not_mem_callsFor]


/-- Construction on a device on which the second kernel, `multiply_arrays`, fails to
compile. -/
theorem compile_failure_aborts_witness :
    (MetalOperations.new brokenMultiplyDevice).stdout =
      "Available Metal functions in 'ops.metallib':" :: allKernels.take (1 + 1) ++
        ["Failed to created pipeline state object for " ++ "multiply_arrays" ++ ", error " ++
          "compile failed"] ∧
    (∀ k earlier, k < 1 → allKernels[k]? = some earlier →
      ∃ p, compile brokenMultiplyDevice (libraryOf allKernels) earlier = .ok p ∧
        StdMap.find (MetalOperations.new brokenMultiplyDevice).engine.functionPipelineMap
          earlier = some (some p)) ∧
    (∀ key,
      StdMap.find (MetalOperations.new brokenMultiplyDevice).engine.functionPipelineMap key ≠
        none → key ∈ allKernels.take (1 + 1)) ∧
    (MetalOperations.new brokenMultiplyDevice).calls =
      [DeviceCall.newLibrary libraryPath, DeviceCall.functionNames] ++
        callsFor (libraryOf allKernels) (allKernels.take (1 + 1)) ∧
    DeviceCall.newCommandQueue ∉ (MetalOperations.new brokenMultiplyDevice).calls ∧
    (MetalOperations.new brokenMultiplyDevice).engine._mCommandQueue = none ∧
    (MetalOperations.new brokenMultiplyDevice).ready = false :=
  compile_failure_aborts brokenMultiplyDevice (libraryOf allKernels) 1 "multiply_arrays"
    "compile failed" rfl rfl
    (by
      intro k earlier hk h
      have hk0 : k = 0 := by omega
      subst hk0
      have he : earlier = "add_arrays" := by
        simpa [libraryOf, allKernels] using h.symm
      subst he
      exact ⟨_, rfl⟩)
    rfl

/-! ## Successful construction -/

/-- C5, as stated, fails: on a device whose library lists `add_arrays`, `saxpy` and
`central_difference` only, the library loads, every listed kernel compiles and the
command queue is created, yet `multiply_arrays`, which multiplyArrays and addMultiply
refer to, is not a key of the cache. -/
theorem construction_succeeds_without_multiply_arrays :
    threeKernelDevice.newLibrary libraryPath =
      .ok (libraryOf ["add_arrays", "saxpy", "central_difference"]) ∧
    (∀ name ∈ ["add_arrays", "saxpy", "central_difference"],
      ∃ p, compile threeKernelDevice
        (libraryOf ["add_arrays", "saxpy", "central_difference"]) name = .ok p) ∧
    threeKernelDevice.newCommandQueue = some workingQueue ∧
    (MetalOperations.new threeKernelDevice).ready = true ∧
    (MetalOperations.new threeKernelDevice).stdout =
      ["Available Metal functions in 'ops.metallib':", "add_arrays", "saxpy",
        "central_difference", ""] ∧
    StdMap.find (MetalOperations.new threeKernelDevice).engine.functionPipelineMap
      "multiply_arrays" = none := by
  refine ⟨rfl, ?_, rfl, by decide, by decide, by decide⟩
  intro name h
  simp at h
  rcases h with rfl | rfl | rfl <;> exact ⟨_, rfl⟩

/-- C5, amended: when the library loads, every kernel it lists compiles and the command
queue is created, the engine is Ready and the keys of the pipeline cache are exactly
the names the library lists, each mapped to the non-null pipeline compiled for it; a
name the library does not list is not a key. -/
theorem cache_after_construction (device : Device) (lib : Library) (queue : CommandQueue)
    (hlib : device.newLibrary libraryPath = .ok lib)
    (hall : ∀ name ∈ lib.functionNames, ∃ p, compile device lib name = .ok p)
    (hqueue : device.newCommandQueue = some queue) :
    (MetalOperations.new device).ready = true ∧
    (∀ name ∈ lib.functionNames, ∃ p, compile device lib name = .ok p ∧
      StdMap.find (MetalOperations.new device).engine.functionPipelineMap name =
        some (some p)) ∧
    (∀ name, name ∉ lib.functionNames →
      StdMap.find (MetalOperations.new device).engine.functionPipelineMap name = none) := by
  have hrun := loadPipelines_all_ok device lib lib.functionNames
    { engine := { functionMap := [], functionPipelineMap := [], _mCommandQueue := none },
      stdout := ["Available Metal functions in 'ops.metallib':"],
      calls := [.newLibrary libraryPath, .functionNames] } hall
  have hcache : (MetalOperations.new device).engine.functionPipelineMap =
      compiledInto device lib lib.functionNames [] := by
    simp only [MetalOperations.new, hlib, hrun]
  have hready : (MetalOperations.new device).ready = true := by
    simp only [MetalOperations.new, hlib, hrun, hqueue, Construction.ready]
    rfl
  refine ⟨hready, ?_, ?_⟩
  · intro name hmem
    obtain ⟨p, hp⟩ := hall name hmem
    exact ⟨p, hp, by simp [hcache, find_compiledInto, hmem, hp, pointerOf]⟩
  · intro name hnot
    simp [hcache, find_compiledInto, hnot, StdMap.find]

/-- Construction on a device whose library lists the four kernels. -/
theorem cache_after_construction_witness :
    (MetalOperations.new (deviceOf allKernels)).ready = true ∧
    (∀ name ∈ allKernels, ∃ p, compile (deviceOf allKernels) (libraryOf allKernels) name = .ok p ∧
      StdMap.find (MetalOperations.new (deviceOf allKernels)).engine.functionPipelineMap name =
        some (some p)) ∧
    (∀ name, name ∉ allKernels →
      StdMap.find (MetalOperations.new (deviceOf allKernels)).engine.functionPipelineMap name =
        none) :=
  cache_after_construction (deviceOf allKernels) (libraryOf allKernels) workingQueue rfl
    (by
      intro name h
      simp [libraryOf, allKernels] at h
      rcases h with rfl | rfl | rfl | rfl <;> exact ⟨_, rfl⟩)
    rfl


/-! ## Executing the encoded dispatches -/

/-- Running the threads `0 .. n-1` of an elementwise kernel: element `i < n` of the
output holds `op` of the original elements `i` of the two inputs (also when an input is
the output buffer), elements from `n` on are untouched, and so is every other buffer. -/
theorem elementwise_fold {α : Type} (op : α → α → α) (a b out : Buffer) (mem : Memory α)
    (n : Nat) :
    (∀ i, i < n →
      (List.range n).foldl (elementwiseThread op a b out) mem out i = op (mem a i) (mem b i)) ∧
    (∀ buffer i, n ≤ i →
      (List.range n).foldl (elementwiseThread op a b out) mem buffer i = mem buffer i) ∧
    (∀ buffer i, buffer ≠ out →
      (List.range n).foldl (elementwiseThread op a b out) mem buffer i = mem buffer i) := by
  induction n with
  | zero => simp
  | succ n ih =>
    obtain ⟨h1, h2, h3⟩ := ih
    rw [List.range_succ, List.foldl_append]
    simp only [List.foldl_cons, List.foldl_nil]
    refine ⟨?_, ?_, ?_⟩
    · intro i hi
      by_cases hin : i = n
      · subst hin
        simp [elementwiseThread, Memory.write, h2 a i (Nat.le_refl i), h2 b i (Nat.le_refl i)]
      · have hlt : i < n := by omega
        simp [elementwiseThread, Memory.write, hin, h1 i hlt]
    · intro buffer i hi
      have hne : ¬ i = n := by omega
      simp [elementwiseThread, Memory.write, hne, h2 buffer i (by omega)]
    · intro buffer i hb
      simp [elementwiseThread, Memory.write, hb, h3 buffer i hb]

/-- C3: with `add_arrays` and `multiply_arrays` modelled as the elementwise sum and
product and the encoded dispatches executed in encode order, addMultiply on an engine
that can encode and caches both kernels runs to its end, and afterwards element `i` of
the result buffer is `(X[i] + Y[i]) * Y[i]` for every `i < arrayLength`, for every
`arrayLength > 0` and every contents X, Y of the x and y buffers, provided the result
buffer is not the y buffer (it may be the x buffer). -/
theorem addMultiply_computes {α : Type} [Add α] [Mul α] (m : MetalOperations)
    (x y r : Buffer) (n : Nat) (pAdd pMul : ComputePipelineState) (mem : Memory α)
    (hq : m.CanEncode)
    (hAdd : StdMap.find m.functionPipelineMap "add_arrays" = some (some pAdd))
    (hAddKernel : pAdd.function.name = "add_arrays")
    (hMul : StdMap.find m.functionPipelineMap "multiply_arrays" = some (some pMul))
    (hMulKernel : pMul.function.name = "multiply_arrays")
    (_hn : 0 < n) (hry : r ≠ y) :
    (m.addMultiply x y r n).fault = none ∧
    ∃ result : Memory α,
      execute (invocations (m.addMultiply x y r n).commands) mem = some result ∧
      ∀ i, i < n → result r i = (mem x i + mem y i) * mem y i := by
  rw [addMultiply_run m x y r n pAdd hq hAdd]
  refine ⟨rfl, ?_⟩
  have hyr : y ≠ r := fun h => hry h.symm
  obtain ⟨a1, _, a3⟩ := elementwise_fold (fun u v : α => u + v) x y r mem n
  obtain ⟨b1, _, _⟩ := elementwise_fold (fun u v : α => u * v) r y r
    ((List.range n).foldl (elementwiseThread (fun u v : α => u + v) x y r) mem) n
  refine ⟨(List.range n).foldl (elementwiseThread (fun u v : α => u * v) r y r)
    ((List.range n).foldl (elementwiseThread (fun u v : α => u + v) x y r) mem), ?_, ?_⟩
  · simp [invocations, invocationsFrom, bindBuffer, execute, runInvocation,
      Invocation.argument, kernelArithmetic, pipelineAt_of_find m _ _ hMul, hAddKernel,
      hMulKernel, Size.Make]
  · intro i hi
    rw [b1 i hi, a1 i hi, a3 y i hyr]

/-- The scenario X = [1, 2, 3, 4], Y = [10, 20, 30, 40] with four elements. -/
theorem addMultiply_computes_witness :
    ∃ result : Memory Int,
      execute (invocations (fullEngine.addMultiply ⟨0⟩ ⟨1⟩ ⟨2⟩ 4).commands) scenarioMemory =
        some result ∧
      (List.range 4).map (result ⟨2⟩) = [110, 440, 990, 1760] := by
  obtain ⟨_, result, hrun, hval⟩ :=
    addMultiply_computes fullEngine ⟨0⟩ ⟨1⟩ ⟨2⟩ 4 ⟨⟨"add_arrays"⟩, 1024⟩
      ⟨⟨"multiply_arrays"⟩, 512⟩ scenarioMemory rfl rfl rfl rfl rfl (by decide) (by decide)
  refine ⟨result, hrun, ?_⟩
  have h0 := hval 0 (by decide)
  have h1 := hval 1 (by decide)
  have h2 := hval 2 (by decide)
  have h3 := hval 3 (by decide)
  simp [List.range_succ, h0, h1, h2, h3, scenarioMemory]


/-! ## Readiness -/

theorem all_ok_or_first_error (device : Device) (lib : Library) (names : List String) :
    (∀ n ∈ names, ∃ p, compile device lib n = .ok p) ∨
    ∃ done name later e, names = done ++ name :: later ∧
      (∀ n ∈ done, ∃ p, compile device lib n = .ok p) ∧
      compile device lib name = .error e := by
  induction names with
  | nil => left; simp
  | cons first rest ih =>
    cases hc : compile device lib first with
    | error e => exact Or.inr ⟨[], first, rest, e, rfl, by simp, hc⟩
    | ok p =>
      rcases ih with hall | ⟨done, name, later, e, hsplit, hdone, herr⟩
      · left
        intro n hn
        rcases List.mem_cons.1 hn with rfl | hmem
        · exact ⟨p, hc⟩
        · exact hall n hmem
      · right
        refine ⟨first :: done, name, later, e, by simp [hsplit], ?_, herr⟩
        intro n hn
        rcases List.mem_cons.1 hn with rfl | hmem
        · exact ⟨p, hc⟩
        · exact hdone n hmem

/-- The engine is Ready exactly when the library loaded, every kernel it lists compiled
and the device returned a command queue. -/
theorem ready_iff (device : Device) :
    (MetalOperations.new device).ready = true ↔
      ∃ lib queue, device.newLibrary libraryPath = .ok lib ∧
        (∀ name ∈ lib.functionNames, ∃ p, compile device lib name = .ok p) ∧
        device.newCommandQueue = some queue := by
  constructor
  · intro h
    cases hlib : device.newLibrary libraryPath with
    | error e => simp [MetalOperations.new, hlib, Construction.ready] at h
    | ok lib =>
      rcases all_ok_or_first_error device lib lib.functionNames with
        hall | ⟨done, name, later, e, hsplit, hdone, herr⟩
      · have hrun := loadPipelines_all_ok device lib lib.functionNames
          { engine := { functionMap := [], functionPipelineMap := [], _mCommandQueue := none },
            stdout := ["Available Metal functions in 'ops.metallib':"],
            calls := [.newLibrary libraryPath, .functionNames] } hall
        simp only [MetalOperations.new, hlib, hrun, Construction.ready] at h
        cases hq : device.newCommandQueue with
        | none => simp [hq] at h
        | some queue => exact ⟨lib, queue, rfl, hall, rfl⟩
      · have hrun := loadPipelines_first_error device lib done name later e
          { engine := { functionMap := [], functionPipelineMap := [], _mCommandQueue := none },
            stdout := ["Available Metal functions in 'ops.metallib':"],
            calls := [.newLibrary libraryPath, .functionNames] } hdone herr
        rw [← hsplit] at hrun
        simp [MetalOperations.new, hlib, hrun, Construction.ready] at h
  · rintro ⟨lib, queue, hlib, hall, hqueue⟩
    have hrun := loadPipelines_all_ok device lib lib.functionNames
      { engine := { functionMap := [], functionPipelineMap := [], _mCommandQueue := none },
        stdout := ["Available Metal functions in 'ops.metallib':"],
        calls := [.newLibrary libraryPath, .functionNames] } hall
    simp only [MetalOperations.new, hlib, hrun, hqueue, Construction.ready]
    rfl

/-- With the result buffer equal to the y buffer the sum overwrites Y before the product
reads it, and the scenario yields `(X[i] + Y[i]) * (X[i] + Y[i])`. -/
theorem addMultiply_result_aliasing_y :
    (execute (invocations (fullEngine.addMultiply ⟨0⟩ ⟨1⟩ ⟨1⟩ 4).commands) scenarioMemory).map
        (fun result => (List.range 4).map (result ⟨1⟩)) =
      some [121, 484, 1089, 1936] := by
  decide

end MetalOps
